import Mathlib

/-!
Verification of the socialbondpay backend against its specification.

The repository contains two variants of the same Express server:
  * `src/unnamed/part_000` — the CommonJS variant ("server.js (CommonJS — ready
    to run)"), which verifies the webhook HMAC over the exact raw body bytes,
    checks that both the webhook secret and the signature header are present,
    validates `create-order` amounts with an `isNaN` check and rounds the
    minor-unit conversion, and uses the fallback chain
    `entity.status || event.event || "unknown"`.
  * `src/server.js` — the ESM variant, which parses the body in middleware
    (`bodyParser.json()`), verifies the HMAC over `JSON.stringify(req.body)`
    (a re-serialization), has no missing-secret / missing-header check, no
    `isNaN` check, no rounding, and falls back for status to the literal
    `"created"`.

Both variants are embedded below as pure functions:
  * requests are (secret, signature header, raw body, store) tuples;
  * the PostgreSQL `INSERT ... ON CONFLICT (event_id) DO NOTHING` is modelled
    by `insertPayment` over a list of rows (SQL NULL keys never conflict,
    matching PostgreSQL's treatment of NULL in unique constraints);
  * `crypto.createHmac("sha256", k).update(m).digest("hex")` is modelled by a
    full executable HMAC-SHA-256 (`hmacSha256Hex`) over byte lists;
  * `JSON.parse` / `JSON.stringify` are modelled by an executable parser and
    printer for the JSON fragment exercised by the gateway payloads
    (null, booleans, decimal numbers, escape-free strings, arrays, objects);
  * strings are identified with their byte sequences via `strBytes`
    (exact for the ASCII payloads considered here).
-/

set_option maxRecDepth 100000

/-! ## Bytes, 32-bit words, SHA-256, HMAC -/

/-- Truncate to a 32-bit word. -/
def w32 (x : Nat) : Nat := x % 4294967296

/-- Right-rotation of a 32-bit word by `n` bits. -/
def rotr (n x : Nat) : Nat := w32 (Nat.lor (x >>> n) (x <<< (32 - n)))

/-- The 64 SHA-256 round constants. -/
def shaK : List Nat :=
  [1116352408, 1899447441, 3049323471, 3921009573, 961987163,
   1508970993, 2453635748, 2870763221, 3624381080, 310598401,
   607225278, 1426881987, 1925078388, 2162078206, 2614888103,
   3248222580, 3835390401, 4022224774, 264347078, 604807628,
   770255983, 1249150122, 1555081692, 1996064986, 2554220882,
   2821834349, 2952996808, 3210313671, 3336571891, 3584528711,
   113926993, 338241895, 666307205, 773529912, 1294757372,
   1396182291, 1695183700, 1986661051, 2177026350, 2456956037,
   2730485921, 2820302411, 3259730800, 3345764771, 3516065817,
   3600352804, 4094571909, 275423344, 430227734, 506948616,
   659060556, 883997877, 958139571, 1322822218, 1537002063,
   1747873779, 1955562222, 2024104815, 2227730452, 2361852424,
   2428436474, 2756734187, 3204031479, 3329325298]

/-- The SHA-256 initial hash value. -/
def shaH0 : List Nat :=
  [1779033703, 3144134277, 1013904242, 2773480762,
   1359893119, 2600822924, 528734635, 1541459225]

/-- Big-endian 8-byte encoding of a natural number. -/
def be64 (n : Nat) : List Nat :=
  [w32 (n >>> 56) % 256, (n >>> 48) % 256, (n >>> 40) % 256, (n >>> 32) % 256,
   (n >>> 24) % 256, (n >>> 16) % 256, (n >>> 8) % 256, n % 256]

/-- SHA-256 message padding: append `0x80`, zeros to 56 mod 64, then the
bit length as a big-endian 64-bit integer. -/
def padMsg (msg : List Nat) : List Nat :=
  msg ++ [0x80] ++ List.replicate ((119 - (msg.length % 64)) % 64) 0
      ++ be64 (8 * msg.length)

/-- Split a byte list into 64-byte chunks (fuel-driven). -/
def chunksGo : Nat → List Nat → List (List Nat)
  | 0, _ => []
  | fuel + 1, l => if l.isEmpty then [] else l.take 64 :: chunksGo fuel (l.drop 64)

/-- Split a byte list into 64-byte chunks. -/
def chunks (l : List Nat) : List (List Nat) := chunksGo l.length l

/-- Big-endian 32-bit words of a byte list. -/
def toWords : List Nat → List Nat
  | a :: b :: c :: d :: rest => (((a * 256 + b) * 256 + c) * 256 + d) :: toWords rest
  | _ => []

/-- One step of the SHA-256 message-schedule extension. -/
def extendStep (w : List Nat) : List Nat :=
  let n := w.length
  let w15 := w.getD (n - 15) 0
  let w2 := w.getD (n - 2) 0
  let s0 := Nat.xor (rotr 7 w15) (Nat.xor (rotr 18 w15) (w15 >>> 3))
  let s1 := Nat.xor (rotr 17 w2) (Nat.xor (rotr 19 w2) (w2 >>> 10))
  w ++ [w32 (w.getD (n - 16) 0 + s0 + w.getD (n - 7) 0 + s1)]

/-- Extend the 16-word schedule to 64 words. -/
def extendW : Nat → List Nat → List Nat
  | 0, w => w
  | n + 1, w => extendW n (extendStep w)

/-- One SHA-256 compression round on the state `[a,b,c,d,e,f,g,h]`. -/
def shaRound (st : List Nat) (kw : Nat × Nat) : List Nat :=
  let a := st.getD 0 0
  let b := st.getD 1 0
  let c := st.getD 2 0
  let d := st.getD 3 0
  let e := st.getD 4 0
  let f := st.getD 5 0
  let g := st.getD 6 0
  let h := st.getD 7 0
  let s1 := Nat.xor (rotr 6 e) (Nat.xor (rotr 11 e) (rotr 25 e))
  let ch := Nat.xor (Nat.land e f) (Nat.land (4294967295 - e) g)
  let t1 := w32 (h + s1 + ch + kw.1 + kw.2)
  let s0 := Nat.xor (rotr 2 a) (Nat.xor (rotr 13 a) (rotr 22 a))
  let mj := Nat.xor (Nat.land a b) (Nat.xor (Nat.land a c) (Nat.land b c))
  let t2 := w32 (s0 + mj)
  [w32 (t1 + t2), a, b, c, w32 (d + t1), e, f, g]

/-- SHA-256 compression function: process one 64-byte block. -/
def sha256Compress (h : List Nat) (block : List Nat) : List Nat :=
  let w := extendW 48 (toWords block)
  let st := (shaK.zip w).foldl shaRound h
  List.zipWith (fun x y => w32 (x + y)) h st

/-- Big-endian bytes of a 32-bit word. -/
def wordBytes (n : Nat) : List Nat :=
  [(n >>> 24) % 256, (n >>> 16) % 256, (n >>> 8) % 256, n % 256]

/-- SHA-256 of a byte list, as 32 bytes. -/
def sha256 (msg : List Nat) : List Nat :=
  ((chunks (padMsg msg)).foldl sha256Compress shaH0).flatMap wordBytes

/-- Lowercase hexadecimal digit. -/
def hexDigit (n : Nat) : Char :=
  if n < 10 then Char.ofNat (48 + n) else Char.ofNat (87 + n)

/-- Lowercase hexadecimal encoding of a byte list. -/
def bytesToHex (l : List Nat) : String :=
  String.mk (l.flatMap fun b => [hexDigit (b / 16 % 16), hexDigit (b % 16)])

/-- HMAC-SHA-256 of a message under a key, as 32 bytes. -/
def hmacSha256 (key msg : List Nat) : List Nat :=
  let k0 := if 64 < key.length then sha256 key else key
  let k := k0 ++ List.replicate (64 - k0.length) 0
  sha256 ((k.map (Nat.xor 0x5c)) ++ sha256 ((k.map (Nat.xor 0x36)) ++ msg))

/-- The bytes of a string (exact for ASCII content, which is all the
payloads considered here use; models Node's UTF-8 `Buffer`). -/
def strBytes (s : String) : List Nat := s.toList.map Char.toNat

/-- `crypto.createHmac("sha256", key).update(msg).digest("hex")`. -/
def hmacSha256Hex (key msg : String) : String :=
  bytesToHex (hmacSha256 (strBytes key) (strBytes msg))

example : bytesToHex (sha256 (strBytes "abc")) =
    "ba7816bf8f01cfea414140de5dae2223b00361a396177a9cb410ff61f20015ad" := by decide

example : hmacSha256Hex "key" "The quick brown fox jumps over the lazy dog" =
    "f7bc83f430538424b13298e6aa6fb143ef4d59a14946175997479dbc2d1a3cd8" := by decide

/-! ## JSON values, `JSON.parse`, `JSON.stringify`

The fragment of JSON exercised by the gateway payloads: null, booleans,
decimal numbers (optional fraction and exponent), strings with the basic
escapes, arrays and objects.  `JSON.parse` is modelled by a fuel-driven
recursive-descent parser; duplicate object keys keep the later value at the
first key's position, as in JavaScript. -/

mutual

/-- A JSON value, as produced by `JSON.parse`.  Arrays and objects carry
their own list types (`JsonList`, `JsonFields`) so that every function over
JSON is plain mutual structural recursion. -/
inductive Json where
  | null : Json
  | bool (flag : Bool) : Json
  | num (value : ℚ) : Json
  | str (text : String) : Json
  | arr (items : JsonList) : Json
  | obj (pairs : JsonFields) : Json

/-- The elements of a JSON array. -/
inductive JsonList where
  | nil : JsonList
  | cons (hd : Json) (tl : JsonList) : JsonList

/-- The members of a JSON object, in property order. -/
inductive JsonFields where
  | nil : JsonFields
  | cons (key : String) (val : Json) (tl : JsonFields) : JsonFields

end

/-- Build object members from a list literal (for readable statements). -/
def jfields : List (String × Json) → JsonFields
  | [] => .nil
  | (k, v) :: rest => .cons k v (jfields rest)

/-- Build a JSON object from a list literal (for readable statements). -/
def jobj (l : List (String × Json)) : Json := .obj (jfields l)

/-- The left-brace character, `Char.ofNat 123`. -/
def lbrace : Char := Char.ofNat 123

/-- The right-brace character, `Char.ofNat 125`. -/
def rbrace : Char := Char.ofNat 125

/-- JavaScript truthiness of a JSON value (`null`, `false`, `0` and `""` are
falsy; every array or object is truthy). -/
def Json.truthy : Json → Bool
  | .null => false
  | .bool b => b
  | .num q => q != 0
  | .str s => s != ""
  | .arr _ => true
  | .obj _ => true

/-- Look up the first member with the given key. -/
def findField : JsonFields → String → Option Json
  | .nil, _ => none
  | .cons k v rest, key => if k == key then some v else findField rest key

/-- Remove the first member with the given key. -/
def removeField : JsonFields → String → JsonFields
  | .nil, _ => .nil
  | .cons k v rest, key =>
      if k == key then rest else .cons k v (removeField rest key)

/-- Property lookup on a JSON value: `none` models JavaScript `undefined`
(missing key, or property access on a non-object). -/
def jget (v : Json) (key : String) : Option Json :=
  match v with
  | .obj fields => findField fields key
  | _ => none

/-- Prepend a member to the members parsed after it, with JavaScript
duplicate-key semantics: a later occurrence of the key wins on value while the
key keeps its first position. -/
def consMember (k : String) (v : Json) (ms : JsonFields) : JsonFields :=
  match findField ms k with
  | some v2 => .cons k v2 (removeField ms k)
  | none => .cons k v ms

/-- Skip JSON whitespace. -/
def skipWs : List Char → List Char
  | [] => []
  | c :: rest =>
      if c == ' ' || c == '\t' || c == '\r' || c == '\n' then skipWs rest
      else c :: rest

/-- The character denoted by a basic escape. -/
def escMap : Char → Option Char
  | 'n' => some '\n'
  | 't' => some '\t'
  | 'r' => some '\r'
  | '"' => some '"'
  | '/' => some '/'
  | '\\' => some '\\'
  | _ => none

/-- Parse a string body after the opening quote (basic escapes only). -/
def parseStringBody : List Char → Option (List Char × List Char)
  | [] => none
  | '"' :: rest => some ([], rest)
  | '\\' :: e :: rest =>
      match escMap e, parseStringBody rest with
      | some c, some p => some (c :: p.1, p.2)
      | _, _ => none
  | c :: rest =>
      match parseStringBody rest with
      | some p => some (c :: p.1, p.2)
      | none => none

/-- Take a maximal run of decimal digits. -/
def takeDigits : List Char → (List Nat × List Char)
  | [] => ([], [])
  | c :: rest =>
      if c.isDigit then
        let p := takeDigits rest
        ((c.toNat - 48) :: p.1, p.2)
      else ([], c :: rest)

/-- The value of a digit run. -/
def digitsVal (ds : List Nat) : Nat := ds.foldl (fun a d => 10 * a + d) 0

/-- Powers of ten (kept elementary so that it evaluates by kernel
reduction). -/
def pow10 : Nat → Nat
  | 0 => 1
  | n + 1 => 10 * pow10 n

/-- The rational `±mantissa ⬝ 10 ^ (exp - scale)`: the value of a decimal
literal with `scale` fraction digits and exponent `exp`.  Built with `mkRat`
and integer arithmetic only, so that it evaluates by kernel reduction
(`Rat.add`, `Rat.mul` and friends are `@[irreducible]`). -/
def mkDecimal (neg : Bool) (mantissa scale : Nat) (exp : Int) : ℚ :=
  let t : Int := exp - (scale : Int)
  let n : Int := if neg then -(mantissa : Int) else (mantissa : Int)
  if 0 ≤ t then mkRat (n * (pow10 t.toNat : Int)) 1
  else mkRat n (pow10 (-t).toNat)

/-- Parse an exponent suffix (after `e` or `E`). -/
def parseExp (r : List Char) : Option (Int × List Char) :=
  let p :=
    match r with
    | '+' :: rr => (false, rr)
    | '-' :: rr => (true, rr)
    | _ => (false, r)
  let d := takeDigits p.2
  if d.1.isEmpty then none
  else if p.1 then some (-(digitsVal d.1 : Int), d.2)
  else some ((digitsVal d.1 : Int), d.2)

/-- Parse a JSON number literal. -/
def parseNum (cs : List Char) : Option (Json × List Char) :=
  let sp :=
    match cs with
    | '-' :: r => (true, r)
    | _ => (false, cs)
  let ip := takeDigits sp.2
  if ip.1.isEmpty then none
  else
    let step2 : Option (List Nat × List Char) :=
      match ip.2 with
      | '.' :: r =>
          let fp := takeDigits r
          if fp.1.isEmpty then none else some (fp.1, fp.2)
      | _ => some ([], ip.2)
    match step2 with
    | none => none
    | some fv =>
      let step3 : Option (Int × List Char) :=
        match fv.2 with
        | 'e' :: r => parseExp r
        | 'E' :: r => parseExp r
        | _ => some (0, fv.2)
      match step3 with
      | none => none
      | some ev =>
          some (.num (mkDecimal sp.1
            (digitsVal ip.1 * pow10 fv.1.length + digitsVal fv.1)
            fv.1.length ev.1), ev.2)

mutual

/-- Parse one JSON value (fuel-driven recursive descent). -/
def parseVal : Nat → List Char → Option (Json × List Char)
  | 0, _ => none
  | fuel + 1, cs =>
    match skipWs cs with
    | [] => none
    | c :: rest =>
        if c == lbrace then
          match skipWs rest with
          | [] => none
          | d :: rest2 =>
              if d == rbrace then some (.obj .nil, rest2)
              else
                match parseMembers fuel (d :: rest2) with
                | some p => some (.obj p.1, p.2)
                | none => none
        else if c == '[' then
          match skipWs rest with
          | [] => none
          | d :: rest2 =>
              if d == ']' then some (.arr .nil, rest2)
              else
                match parseElems fuel (d :: rest2) with
                | some p => some (.arr p.1, p.2)
                | none => none
        else if c == '"' then
          match parseStringBody rest with
          | some p => some (.str (String.mk p.1), p.2)
          | none => none
        else if c == 't' then
          match rest with
          | 'r' :: 'u' :: 'e' :: r => some (.bool true, r)
          | _ => none
        else if c == 'f' then
          match rest with
          | 'a' :: 'l' :: 's' :: 'e' :: r => some (.bool false, r)
          | _ => none
        else if c == 'n' then
          match rest with
          | 'u' :: 'l' :: 'l' :: r => some (.null, r)
          | _ => none
        else parseNum (c :: rest)

/-- Parse the members of an object after its opening brace. -/
def parseMembers : Nat → List Char → Option (JsonFields × List Char)
  | 0, _ => none
  | fuel + 1, cs =>
    match skipWs cs with
    | '"' :: rest =>
        match parseStringBody rest with
        | none => none
        | some kp =>
          match skipWs kp.2 with
          | ':' :: r2 =>
              match parseVal fuel r2 with
              | none => none
              | some vp =>
                match skipWs vp.2 with
                | ',' :: r4 =>
                    match parseMembers fuel r4 with
                    | some mp =>
                        some (consMember (String.mk kp.1) vp.1 mp.1, mp.2)
                    | none => none
                | d :: r4 =>
                    if d == rbrace then some (.cons (String.mk kp.1) vp.1 .nil, r4)
                    else none
                | [] => none
          | _ => none
    | _ => none

/-- Parse the elements of an array after its opening bracket. -/
def parseElems : Nat → List Char → Option (JsonList × List Char)
  | 0, _ => none
  | fuel + 1, cs =>
      match parseVal fuel cs with
      | none => none
      | some vp =>
        match skipWs vp.2 with
        | ',' :: r =>
            match parseElems fuel r with
            | some ep => some (.cons vp.1 ep.1, ep.2)
            | none => none
        | d :: r => if d == ']' then some (.cons vp.1 .nil, r) else none
        | [] => none

end

/-- `JSON.parse`: `none` models a thrown `SyntaxError`. -/
def parseJson (s : String) : Option Json :=
  match parseVal (s.length + 1) s.toList with
  | some (v, rest) => if (skipWs rest).isEmpty then some v else none
  | none => none

/-- Digits of the decimal expansion of `r / d` (`r < d`), fuel-bounded;
terminates early when the remainder vanishes. -/
def fracDigits : Nat → Nat → Nat → List Char
  | 0, _, _ => []
  | _ + 1, 0, _ => []
  | fuel + 1, r, d =>
      Char.ofNat (48 + (10 * r) / d) :: fracDigits fuel ((10 * r) % d) d

/-- Decimal rendering of a number, as `JSON.stringify` renders the doubles
arising from the payloads considered here (integers without a decimal point,
non-integers with their terminating decimal expansion). -/
def renderNum (q : ℚ) : String :=
  if q.den = 1 then toString q.num
  else
    (if q.num < 0 then "-" else "") ++ toString (q.num.natAbs / q.den) ++ "." ++
      String.mk (fracDigits 40 (q.num.natAbs % q.den) q.den)

/-- Escape a string as a JSON string literal (basic escapes only, matching
the parser). -/
def escapeStr (s : String) : String :=
  "\"" ++ String.mk (s.toList.flatMap fun c =>
    if c == '"' then ['\\', '"']
    else if c == '\\' then ['\\', '\\']
    else [c]) ++ "\""

mutual

/-- `JSON.stringify` on parsed JSON: no whitespace, keys in object order. -/
def Json.stringify : Json → String
  | .null => "null"
  | .bool true => "true"
  | .bool false => "false"
  | .num q => renderNum q
  | .str s => escapeStr s
  | .arr l => "[" ++ renderElems l ++ "]"
  | .obj l =>
      String.singleton lbrace ++ renderFields l ++ String.singleton rbrace

/-- Comma-separated rendering of array elements. -/
def renderElems : JsonList → String
  | .nil => ""
  | .cons v .nil => Json.stringify v
  | .cons v rest => Json.stringify v ++ "," ++ renderElems rest

/-- Comma-separated rendering of object members. -/
def renderFields : JsonFields → String
  | .nil => ""
  | .cons k v .nil => escapeStr k ++ ":" ++ Json.stringify v
  | .cons k v rest =>
      escapeStr k ++ ":" ++ Json.stringify v ++ "," ++ renderFields rest

end

/-! ## JavaScript values and coercions for `POST /create-order`

The handler destructures `const { amount, currency = "INR" } = req.body`.
`amount` is modelled by `JsVal` (the JSON-derived scalars plus `undefined` and
`NaN`); `currency` by `Option String` (`none` = absent, so the destructuring
default applies).  `Number(string)` coercion is modelled for trimmed decimal
literals (empty string coerces to 0), which covers every payload the claims
mention. -/

/-- A JavaScript value as seen by the `create-order` handler. -/
inductive JsVal where
  | undef : JsVal
  | null : JsVal
  | bool (b : Bool) : JsVal
  | num (q : ℚ) : JsVal
  | nan : JsVal
  | str (s : String) : JsVal
  deriving DecidableEq, Repr

/-- JavaScript truthiness: `undefined`, `null`, `false`, `0`, `NaN` and `""`
are falsy. -/
def JsVal.truthy : JsVal → Bool
  | .undef => false
  | .null => false
  | .bool b => b
  | .num q => q != 0
  | .nan => false
  | .str s => s != ""

/-- Strip leading and trailing whitespace. -/
def trimChars (s : String) : List Char :=
  ((s.toList.dropWhile Char.isWhitespace).reverse.dropWhile
    Char.isWhitespace).reverse

/-- `Number(s)` for a string: trim, empty coerces to 0, otherwise a decimal
numeric literal; `none` models `NaN`. -/
def numFromStr (s : String) : Option ℚ :=
  match trimChars s with
  | [] => some 0
  | t =>
      match parseNum t with
      | some (.num q, []) => some q
      | _ => none

/-- JavaScript `ToNumber`; `none` models `NaN`. -/
def JsVal.toNum : JsVal → Option ℚ
  | .undef => none
  | .null => some 0
  | .bool b => some (if b then 1 else 0)
  | .num q => some q
  | .nan => none
  | .str s => numFromStr s

/-- The JavaScript comparison `v <= 0`: coerce to number, `NaN` compares
false. -/
def jsLeZero (v : JsVal) : Bool :=
  match v.toNum with
  | some q => decide (q ≤ 0)
  | none => false

/-- `Math.round`: round half toward positive infinity, `⌊q + 1/2⌋`, computed
on the fraction so that it evaluates by kernel reduction. -/
def jsRound (q : ℚ) : ℤ := (2 * q.num + (q.den : ℤ)) / (2 * (q.den : ℤ))

/-- `jsRound` is `⌊q + 1/2⌋`, JavaScript's `Math.round`. -/
theorem jsRound_eq_floor (q : ℚ) : jsRound q = ⌊q + 1 / 2⌋ := by
  have h : q + 1 / 2 =
      ((2 * q.num + (q.den : ℤ) : ℤ) : ℚ) / ((2 * q.den : ℕ) : ℚ) := by
    rw [eq_div_iff (by positivity)]
    push_cast
    nth_rewrite 1 [← Rat.num_div_den q]
    have hden : (q.den : ℚ) ≠ 0 := by
      exact_mod_cast q.den_pos.ne'
    field_simp
    ring
  rw [h, Rat.floor_intCast_div_natCast]
  unfold jsRound
  push_cast
  rfl

/-- `Math.round(amount * 100)` of the CommonJS `create-order` handler,
computed on the fraction so that it evaluates by kernel reduction. -/
def roundPaise (q : ℚ) : ℤ := (200 * q.num + (q.den : ℤ)) / (2 * (q.den : ℤ))

/-- `roundPaise` is exactly `Math.round` applied to `amount * 100`. -/
theorem roundPaise_eq (q : ℚ) : roundPaise q = jsRound (q * 100) := by
  rw [jsRound_eq_floor]
  have h : q * 100 + 1 / 2 =
      ((200 * q.num + (q.den : ℤ) : ℤ) : ℚ) / ((2 * q.den : ℕ) : ℚ) := by
    rw [eq_div_iff (by positivity)]
    push_cast
    nth_rewrite 1 [← Rat.num_div_den q]
    have hden : (q.den : ℚ) ≠ 0 := by
      exact_mod_cast q.den_pos.ne'
    field_simp
    ring
  rw [h, Rat.floor_intCast_div_natCast]
  unfold roundPaise
  push_cast
  rfl

/-- The options object passed to `razorpay.orders.create`; `amount = none`
models `NaN` reaching the gateway, `receiptTime` the `Date.now()` used in the
receipt identifier. -/
structure OrderOptions where
  amount : Option ℚ
  currency : String
  receiptTime : Nat
  deriving DecidableEq, Repr

/-- Outcome of a `create-order` request: the 400 `"Invalid amount"` response,
or a call to the gateway client with the built options. -/
inductive OrderResult where
  | invalidAmount : OrderResult
  | gatewayCall (opts : OrderOptions) : OrderResult
  deriving DecidableEq, Repr

/-- The `POST /create-order` handler of `src/unnamed/part_000` (CommonJS):
`if (!amount || isNaN(amount) || amount <= 0)` → 400, otherwise the gateway is
called with `amount: Math.round(amount * 100)` and the destructured
currency. -/
def createOrder_part000 (amount : JsVal) (currency : Option String)
    (now : Nat) : OrderResult :=
  if !amount.truthy || amount.toNum.isNone || jsLeZero amount then
    .invalidAmount
  else
    .gatewayCall
      ⟨amount.toNum.map fun q => (roundPaise q : ℚ),
       currency.getD "INR", now⟩

/-- The `POST /create-order` handler of `src/server.js` (ESM):
`if (!amount || amount <= 0)` → 400 (no `isNaN` check), otherwise the gateway
is called with `amount: amount * 100` (no rounding). -/
def createOrder_serverJs (amount : JsVal) (currency : Option String)
    (now : Nat) : OrderResult :=
  if !amount.truthy || jsLeZero amount then
    .invalidAmount
  else
    .gatewayCall
      ⟨amount.toNum.map fun q => q * 100, currency.getD "INR", now⟩

/-! ## The payments store and the webhook handlers

A row of the `payments` table holds the six JavaScript values passed as query
parameters (`created_at` is `NOW()`, server-assigned, and not modelled).
`event_id = none` models the `undefined` parameter, which node-postgres sends
as SQL NULL.  `INSERT ... ON CONFLICT (event_id) DO NOTHING` inserts unless a
row with the same non-NULL key exists — in PostgreSQL a NULL key never
conflicts under a unique constraint.  The store itself is assumed available:
`pool.query` failures (which the handlers turn into 500) are not modelled. -/

/-- A row of the `payments` table (parameter values as passed to
`pool.query`). -/
structure Row where
  event_id : Option Json
  status : Json
  amount : Json
  currency : Json
  email : Json
  contact : Json

/-- node-postgres text conversion of a parameter (scalars as JavaScript
renders them; containers via their JSON text, an approximation that no claim
exercises). -/
def pgText : Json → String
  | .str s => s
  | .num q => renderNum q
  | .bool true => "true"
  | .bool false => "false"
  | .null => ""
  | v => v.stringify

/-- The SQL key of a row: NULL (`none`) when the `event_id` parameter is
`undefined` or `null`. -/
def rowKey (r : Row) : Option String :=
  match r.event_id with
  | none => none
  | some .null => none
  | some v => some (pgText v)

/-- `INSERT INTO payments ... ON CONFLICT (event_id) DO NOTHING`. -/
def insertPayment (st : List Row) (r : Row) : List Row :=
  match rowKey r with
  | none => st ++ [r]
  | some k => if st.any fun r0 => rowKey r0 == some k then st else st ++ [r]

/-- The webhook responses a request can produce. -/
inductive WebhookResp where
  | parseFailed : WebhookResp
  | missingAuth : WebhookResp
  | invalidSignature : WebhookResp
  | serverError : WebhookResp
  | ok : WebhookResp
  deriving DecidableEq, Repr

/-- HTTP status of each webhook response (`parseFailed` is the 400 the
`bodyParser.json()` middleware sends for an unparseable body). -/
def WebhookResp.httpStatus : WebhookResp → Nat
  | .parseFailed => 400
  | .missingAuth => 400
  | .invalidSignature => 400
  | .serverError => 500
  | .ok => 200

/-- Body text of each webhook response. -/
def WebhookResp.bodyText : WebhookResp → String
  | .parseFailed => "entity.parse.failed"
  | .missingAuth => "Missing signature or webhook secret"
  | .invalidSignature => "Invalid signature"
  | .serverError => "Webhook error"
  | .ok => "\x7b\"status\":\"ok\"\x7d"

/-- Truthiness of an optional string (a missing header and the empty string
are both falsy). -/
def strOptTruthy : Option String → Bool
  | none => false
  | some s => s != ""

/-- JavaScript optional chaining `v?.key` on an optional value (`none` models
`undefined`). -/
def optChain (v : Option Json) (key : String) : Option Json :=
  match v with
  | none => none
  | some .null => none
  | some j => jget j key

/-- JavaScript `x || fallback` on a possibly-undefined value. -/
def jsOr (x : Option Json) (fb : Json) : Json :=
  match x with
  | some v => if v.truthy then v else fb
  | none => fb

/-- `event.payload?.payment?.entity || null` of `src/unnamed/part_000`. -/
def entityOf (event : Json) : Json :=
  jsOr (optChain (optChain (jget event "payload") "payment") "entity") .null

/-- The row `src/unnamed/part_000` inserts for a parsed event: status falls
back to `event.event` and then `"unknown"`, amount to `0`, currency to
`"INR"`, email and contact to `null`. -/
def mkRow_part000 (event : Json) : Row :=
  let pe := entityOf event
  { event_id := jget event "id"
    status := jsOr (optChain (some pe) "status")
        (jsOr (jget event "event") (.str "unknown"))
    amount := jsOr (optChain (some pe) "amount") (.num 0)
    currency := jsOr (optChain (some pe) "currency") (.str "INR")
    email := jsOr (optChain (some pe) "email") .null
    contact := jsOr (optChain (some pe) "contact") .null }

/-- The row `src/server.js` inserts for a parsed event: status falls back
directly to the literal `"created"` (no `event.event` step, no
`"unknown"`). -/
def mkRow_serverJs (event : Json) : Row :=
  let pe := optChain (optChain (jget event "payload") "payment") "entity"
  { event_id := jget event "id"
    status := jsOr (optChain pe "status") (.str "created")
    amount := jsOr (optChain pe "amount") (.num 0)
    currency := jsOr (optChain pe "currency") (.str "INR")
    email := jsOr (optChain pe "email") .null
    contact := jsOr (optChain pe "contact") .null }

/-- The `POST /webhook` handler of `src/unnamed/part_000` (CommonJS): the
route uses `bodyParser.raw`, so `rawBody` is the exact byte content;
`!signature || !webhookSecret` → 400; the HMAC is computed over the raw
bytes; only after the signature matches is the body parsed (`JSON.parse`
throwing is caught as 500, as is the `TypeError` of `event.payload` when the
body parses to `null`). -/
def webhook_part000 (secret : Option String) (sig : Option String)
    (rawBody : String) (st : List Row) : WebhookResp × List Row :=
  if !strOptTruthy sig || !strOptTruthy secret then (.missingAuth, st)
  else if sig = some (hmacSha256Hex (secret.getD "") rawBody) then
    match parseJson rawBody with
    | none => (.serverError, st)
    | some .null => (.serverError, st)
    | some event => (.ok, insertPayment st (mkRow_part000 event))
  else (.invalidSignature, st)

/-- The handler body of the ESM webhook route, after the `bodyParser.json()`
middleware produced a parsed `req.body`: the HMAC is computed over
`JSON.stringify(req.body)` — a re-serialization of the parsed body, not the
received bytes.  A missing secret makes `createHmac` throw, caught as 500;
there is no missing-signature check, an absent header simply fails the
comparison. -/
def webhook_serverJs_handler (secret : Option String) (sig : Option String)
    (body : Json) (st : List Row) : WebhookResp × List Row :=
  match secret with
  | none => (.serverError, st)
  | some sec =>
      if sig = some (hmacSha256Hex sec body.stringify) then
        (.ok, insertPayment st (mkRow_serverJs body))
      else (.invalidSignature, st)

/-- The `POST /webhook` route of `src/server.js` (ESM): the
`bodyParser.json()` middleware parses the body before the handler runs
(strict mode: only objects and arrays; anything else → the middleware's own
400), then hands the parsed body to the handler. -/
def webhook_serverJs (secret : Option String) (sig : Option String)
    (rawBody : String) (st : List Row) : WebhookResp × List Row :=
  match parseJson rawBody with
  | some (.obj fields) => webhook_serverJs_handler secret sig (.obj fields) st
  | some (.arr elems) => webhook_serverJs_handler secret sig (.arr elems) st
  | _ => (.parseFailed, st)

/-! ## Supporting lemmas about the embedding -/

/-- A compression round always produces the 8-word state. -/
theorem shaRound_length (st : List Nat) (kw : Nat × Nat) :
    (shaRound st kw).length = 8 := rfl

/-- Folding rounds over a nonempty schedule produces the 8-word state. -/
theorem foldl_shaRound_length (l : List (Nat × Nat)) (h : List Nat)
    (hl : l ≠ []) : (l.foldl shaRound h).length = 8 := by
  induction l generalizing h with
  | nil => exact absurd rfl hl
  | cons a rest ih =>
      cases rest with
      | nil => simpa using shaRound_length h a
      | cons b tl => simpa using ih (shaRound h a) (by simp)

/-- The schedule-extension step appends one word. -/
theorem extendStep_length (w : List Nat) :
    (extendStep w).length = w.length + 1 := by
  simp [extendStep]

/-- Extending the schedule `n` times appends `n` words. -/
theorem extendW_length (n : Nat) (w : List Nat) :
    (extendW n w).length = w.length + n := by
  induction n generalizing w with
  | zero => simp [extendW]
  | succ m ih => simp [extendW, ih, extendStep_length]; omega

/-- The compression function preserves the 8-word state. -/
theorem sha256Compress_length (h block : List Nat) (hh : h.length = 8) :
    (sha256Compress h block).length = 8 := by
  have hw : (extendW 48 (toWords block)).length = (toWords block).length + 48 :=
    extendW_length 48 (toWords block)
  have hzip : (shaK.zip (extendW 48 (toWords block))) ≠ [] := by
    have : (shaK.zip (extendW 48 (toWords block))).length =
        min shaK.length (extendW 48 (toWords block)).length :=
      List.length_zip shaK (extendW 48 (toWords block))
    intro hnil
    rw [hnil] at this
    simp [shaK] at this
    omega
  have hst := foldl_shaRound_length (shaK.zip (extendW 48 (toWords block))) h hzip
  simp [sha256Compress, List.length_zipWith, hh, hst]

/-- Folding the compression function over any block list preserves the
8-word state. -/
theorem foldl_sha256Compress_length (blocks : List (List Nat)) (h : List Nat)
    (hh : h.length = 8) : (blocks.foldl sha256Compress h).length = 8 := by
  induction blocks generalizing h with
  | nil => simpa using hh
  | cons b rest ih => simpa using ih (sha256Compress h b) (sha256Compress_length h b hh)

/-- Serializing a word list gives four bytes per word. -/
theorem length_flatMap_wordBytes (l : List Nat) :
    (l.flatMap wordBytes).length = 4 * l.length := by
  induction l with
  | nil => simp
  | cons a rest ih => simp [wordBytes, ih]; omega

/-- A SHA-256 digest is 32 bytes. -/
theorem sha256_length (msg : List Nat) : (sha256 msg).length = 32 := by
  have h8 : ((chunks (padMsg msg)).foldl sha256Compress shaH0).length = 8 :=
    foldl_sha256Compress_length _ _ (by simp [shaH0])
  unfold sha256
  rw [length_flatMap_wordBytes, h8]

/-- Hex encoding gives two characters per byte. -/
theorem bytesToHex_length (l : List Nat) :
    (bytesToHex l).length = 2 * l.length := by
  simp only [bytesToHex]
  induction l with
  | nil => simp
  | cons a rest ih => simpa using by simpa using congrArg (· + 2) ih

/-- The hex HMAC tag is 64 characters long. -/
theorem hmacSha256Hex_length (key msg : String) :
    (hmacSha256Hex key msg).length = 64 := by
  simp [hmacSha256Hex, bytesToHex_length, hmacSha256, sha256_length]

/-- The hex HMAC tag is never the empty string, so a supplied signature equal
to it passes the handler's truthiness test. -/
theorem hmacSha256Hex_ne_empty (key msg : String) : hmacSha256Hex key msg ≠ "" := by
  intro h
  have := hmacSha256Hex_length key msg
  rw [h] at this
  simp at this

/-- An insert either leaves the store unchanged or appends exactly one row. -/
theorem insertPayment_eq_or_append (st : List Row) (r : Row) :
    insertPayment st r = st ∨ insertPayment st r = st ++ [r] := by
  unfold insertPayment
  cases hk : rowKey r with
  | none => exact Or.inr rfl
  | some k =>
      by_cases h : (st.any fun r0 => rowKey r0 == some k) = true
      · simp [h]
      · simp [h]

/-- An insert whose key conflicts with no present row appends the row. -/
theorem insertPayment_append (st : List Row) (r : Row)
    (h : ∀ r0 ∈ st, rowKey r0 ≠ rowKey r) :
    insertPayment st r = st ++ [r] := by
  unfold insertPayment
  cases hk : rowKey r with
  | none => rfl
  | some k =>
      have hany : (st.any fun r0 => rowKey r0 == some k) = false := by
        rw [List.any_eq_false]
        intro r0 hr0
        simp only [beq_iff_eq]
        intro hkey
        exact h r0 hr0 (hkey.trans hk.symm)
      simp [hany]

/-- Number of rows in the store carrying a given `event_id` key. -/
def keyCount (st : List Row) (k : String) : Nat :=
  st.countP fun r => rowKey r == some k

/-- The store component of a success response satisfies the frame
condition. -/
theorem pair_snd_frame (resp : WebhookResp) (st : List Row) (r : Row) :
    ((resp, insertPayment st r)).2 = st ∨
      ∃ r0, ((resp, insertPayment st r)).2 = st ++ [r0] := by
  rcases insertPayment_eq_or_append st r with h | h
  · exact Or.inl h
  · exact Or.inr ⟨r, h⟩

/-! ## Claim theorems -/

/-- The raw webhook body `\x7b"id": "evt_1"\x7d` — note the interior space,
which any JSON re-serialization of the parsed body drops. -/
def rawSpaced : String := "\x7b\"id\": \"evt_1\"\x7d"

/-- C1: signature verification is over the exact raw body bytes only in the
raw-body (CommonJS) variant.  For a request correctly signed over the raw
bytes (whose parsed form re-serializes differently), the raw-body handler
accepts, while the `src/server.js` handler — which recomputes the HMAC over
`JSON.stringify(req.body)` — rejects it with 400 and persists nothing,
contradicting the claim that every handler accepts exactly the requests whose
raw-byte digest matches. -/
theorem webhook_signature_raw_bytes_divergence :
    (webhook_part000 (some "whsec")
        (some (hmacSha256Hex "whsec" rawSpaced)) rawSpaced []).1 = .ok ∧
    (webhook_serverJs (some "whsec")
        (some (hmacSha256Hex "whsec" rawSpaced)) rawSpaced []).1 =
      .invalidSignature ∧
    (webhook_serverJs (some "whsec")
        (some (hmacSha256Hex "whsec" rawSpaced)) rawSpaced []).2.isEmpty = true ∧
    WebhookResp.invalidSignature.httpStatus = 400 := by
  refine ⟨by decide, by decide, by decide, rfl⟩

/-- C8: frame condition — a webhook request leaves the store unchanged or
appends exactly one row; no row is ever updated or deleted, in either
variant. -/
theorem webhook_frame_condition (secret sig : Option String) (raw : String)
    (st : List Row) :
    ((webhook_part000 secret sig raw st).2 = st ∨
      ∃ r, (webhook_part000 secret sig raw st).2 = st ++ [r]) ∧
    ((webhook_serverJs secret sig raw st).2 = st ∨
      ∃ r, (webhook_serverJs secret sig raw st).2 = st ++ [r]) := by
  constructor
  · unfold webhook_part000
    split
    · exact Or.inl rfl
    · split
      · split
        · exact Or.inl rfl
        · exact Or.inl rfl
        · exact pair_snd_frame _ st _
      · exact Or.inl rfl
  · unfold webhook_serverJs
    split
    · unfold webhook_serverJs_handler
      split
      · exact Or.inl rfl
      · split
        · exact pair_snd_frame _ st _
        · exact Or.inl rfl
    · unfold webhook_serverJs_handler
      split
      · exact Or.inl rfl
      · split
        · exact pair_snd_frame _ st _
        · exact Or.inl rfl
    · exact Or.inl rfl

/-- C9: the CommonJS `create-order` validation accepts numeric strings —
`amount = "100"` is not rejected, and the gateway is called with the coerced
minor-unit amount 10000 (and the default currency). -/
theorem createOrder_part000_accepts_numeric_string (now : Nat) :
    createOrder_part000 (.str "100") none now =
      .gatewayCall ⟨some 10000, "INR", now⟩ := by
  rfl

/-- C3 (amended): in the raw-body (CommonJS) variant an unconfigured secret or
an absent signature header yields HTTP 400 and the store is untouched; in the
parsed-body (`src/server.js`) variant an absent header yields 400 (the
signature comparison fails) but an unconfigured secret yields 500 (`createHmac`
throws) — or the middleware's 400 when the body is unparseable — again with
the store untouched in every case. -/
theorem webhook_missing_auth_behavior (secret sig : Option String)
    (raw : String) (st : List Row) :
    ((secret = none ∨ sig = none) →
      (webhook_part000 secret sig raw st).1.httpStatus = 400 ∧
      (webhook_part000 secret sig raw st).2 = st) ∧
    (sig = none → secret ≠ none →
      (webhook_serverJs secret sig raw st).1.httpStatus = 400 ∧
      (webhook_serverJs secret sig raw st).2 = st) ∧
    (secret = none →
      ((webhook_serverJs secret sig raw st).1.httpStatus = 500 ∨
        (webhook_serverJs secret sig raw st).1.httpStatus = 400) ∧
      (webhook_serverJs secret sig raw st).2 = st) := by
  refine ⟨?_, ?_, ?_⟩
  · intro h
    have hcond : (!strOptTruthy sig || !strOptTruthy secret) = true := by
      rcases h with h | h <;> simp [h, strOptTruthy]
    unfold webhook_part000
    rw [if_pos hcond]
    exact ⟨rfl, rfl⟩
  · intro hsig hsec
    subst hsig
    unfold webhook_serverJs
    cases hp : parseJson raw with
    | none => exact ⟨rfl, rfl⟩
    | some v =>
        cases v with
        | obj fields =>
            unfold webhook_serverJs_handler
            cases hs : secret with
            | none => exact absurd hs hsec
            | some s => exact ⟨rfl, rfl⟩
        | arr elems =>
            unfold webhook_serverJs_handler
            cases hs : secret with
            | none => exact absurd hs hsec
            | some s => exact ⟨rfl, rfl⟩
        | null => exact ⟨rfl, rfl⟩
        | bool b => exact ⟨rfl, rfl⟩
        | num q => exact ⟨rfl, rfl⟩
        | str s2 => exact ⟨rfl, rfl⟩
  · intro hs
    subst hs
    unfold webhook_serverJs
    cases hp : parseJson raw with
    | none => exact ⟨Or.inr rfl, rfl⟩
    | some v =>
        cases v with
        | obj fields => exact ⟨Or.inl rfl, rfl⟩
        | arr elems => exact ⟨Or.inl rfl, rfl⟩
        | null => exact ⟨Or.inr rfl, rfl⟩
        | bool b => exact ⟨Or.inr rfl, rfl⟩
        | num q => exact ⟨Or.inr rfl, rfl⟩
        | str s2 => exact ⟨Or.inr rfl, rfl⟩

/-- C3 witness: a concrete request without a configured secret gets 400 from
the raw-body handler and no store mutation. -/
theorem webhook_missing_auth_behavior_witness :
    (webhook_part000 none (some "x") "b" []).1.httpStatus = 400 ∧
    (webhook_part000 none (some "x") "b" []).2 = [] :=
  (webhook_missing_auth_behavior none (some "x") "b" []).1 (Or.inl rfl)

/-- C3 counterexample: the claim promises HTTP 400 whenever the secret is not
configured, but the `src/server.js` handler responds 500 on a well-formed
request when the secret is missing (the `createHmac` call throws). -/
theorem webhook_missing_secret_500 :
    (webhook_serverJs none (some "deadbeef") "\x7b\"id\":\"e1\"\x7d" []).1.httpStatus
      = 500 := by
  decide


/-- A falsy amount coerces to zero whenever it coerces to a number at all. -/
theorem toNum_zero_of_not_truthy (v : JsVal) (q : ℚ) (hq : v.toNum = some q)
    (ht : v.truthy = false) : q = 0 := by
  cases v with
  | undef => exact absurd hq (by simp [JsVal.toNum])
  | nan => exact absurd hq (by simp [JsVal.toNum])
  | null =>
      simp only [JsVal.toNum, Option.some.injEq] at hq
      exact hq.symm
  | bool b =>
      cases b with
      | true => simp [JsVal.truthy] at ht
      | false =>
          simp only [JsVal.toNum, Bool.false_eq_true, if_false,
            Option.some.injEq] at hq
          exact hq.symm
  | num q0 =>
      simp only [JsVal.truthy, bne_eq_false_iff_eq] at ht
      simp only [JsVal.toNum, Option.some.injEq] at hq
      rw [← hq, ht]
  | str s =>
      simp only [JsVal.truthy, bne_eq_false_iff_eq] at ht
      subst ht
      have h0 : numFromStr "" = some 0 := rfl
      simp only [JsVal.toNum, h0, Option.some.injEq] at hq
      exact hq.symm

/-- The specification's invalid-amount predicate: the amount is missing or
non-numeric (its numeric coercion is NaN), or it is not strictly positive. -/
def amountInvalid (v : JsVal) : Prop :=
  v.toNum = none ∨ ∃ q, v.toNum = some q ∧ q ≤ 0

/-- The CommonJS `create-order` handler either rejects an invalid amount with
`InvalidAmount` or calls the gateway with the rounded minor-unit conversion of
a strictly positive numeric amount. -/
theorem createOrder_part000_cases (v : JsVal) (c : Option String) (now : Nat) :
    (amountInvalid v ∧ createOrder_part000 v c now = .invalidAmount) ∨
    (¬ amountInvalid v ∧ ∃ q, v.toNum = some q ∧ 0 < q ∧
      createOrder_part000 v c now =
        .gatewayCall ⟨some (roundPaise q : ℚ), c.getD "INR", now⟩) := by
  unfold createOrder_part000
  cases hcond : (!v.truthy || v.toNum.isNone || jsLeZero v) with
  | true =>
      left
      refine ⟨?_, rfl⟩
      have hcond' : (v.truthy = false ∨ v.toNum = none) ∨
          jsLeZero v = true := by
        simpa [Bool.or_eq_true] using hcond
      rcases hcond' with (h | h) | h
      · cases hv : v.toNum with
        | none => exact Or.inl hv
        | some q =>
            exact Or.inr ⟨q, hv,
              le_of_eq (toNum_zero_of_not_truthy v q hv h)⟩
      · exact Or.inl h
      · unfold jsLeZero at h
        cases hv : v.toNum with
        | none => exact Or.inl hv
        | some q =>
            rw [hv] at h
            exact Or.inr ⟨q, hv, of_decide_eq_true h⟩
  | false =>
      right
      have hcond' : (v.truthy = true ∧ v.toNum.isSome = true) ∧
          jsLeZero v = false := by
        simpa [Bool.or_eq_false_iff] using hcond
      obtain ⟨⟨ht, hsome⟩, hle⟩ := hcond'
      cases hv : v.toNum with
      | none => rw [hv] at hsome; exact absurd hsome (by simp)
      | some q =>
          have hpos : 0 < q := by
            unfold jsLeZero at hle
            rw [hv] at hle
            exact lt_of_not_le (of_decide_eq_false hle)
          refine ⟨?_, q, rfl, hpos, ?_⟩
          · rintro (h | ⟨q2, hq2, hq2le⟩)
            · rw [hv] at h
              exact Option.noConfusion h
            · rw [hv] at hq2
              rw [Option.some.injEq] at hq2
              subst hq2
              exact absurd hq2le (not_le_of_lt hpos)
          · rw [if_neg Bool.false_ne_true]
            rfl

/-- C5 (amended): in the raw-body (CommonJS) variant, `create-order` fails
with `InvalidAmount` exactly when the amount is missing, non-numeric (its
numeric coercion is NaN), or not strictly positive — in particular amount
`0`, `-5` and `"abc"` are all rejected — and the gateway is called in
precisely the remaining cases.  The parsed-body variant omits the `isNaN`
check, so the non-numeric `"abc"` is not rejected there (see the
counterexample). -/
theorem createOrder_part000_validation (v : JsVal) (c : Option String)
    (now : Nat) :
    (createOrder_part000 v c now = .invalidAmount ↔ amountInvalid v) ∧
    ((∃ g, createOrder_part000 v c now = .gatewayCall g) ↔ ¬ amountInvalid v) ∧
    createOrder_part000 (.num 0) c now = .invalidAmount ∧
    createOrder_part000 (.num (-5)) c now = .invalidAmount ∧
    createOrder_part000 (.str "abc") c now = .invalidAmount := by
  refine ⟨?_, ?_, rfl, rfl, rfl⟩
  · rcases createOrder_part000_cases v c now with ⟨hi, he⟩ | ⟨hni, q, _, _, he⟩
    · exact ⟨fun _ => hi, fun _ => he⟩
    · constructor
      · intro h
        rw [he] at h
        exact OrderResult.noConfusion h
      · intro h
        exact absurd h hni
  · rcases createOrder_part000_cases v c now with ⟨hi, he⟩ | ⟨hni, q, _, _, he⟩
    · constructor
      · rintro ⟨g, hg⟩
        rw [he] at hg
        exact OrderResult.noConfusion hg
      · intro h
        exact absurd hi h
    · exact ⟨fun _ => hni, fun _ => ⟨_, he⟩⟩

/-- C5 counterexample: the parsed-body (`src/server.js`) variant accepts the
non-numeric amount `"abc"`: the `InvalidAmount` branch is not taken and the
gateway is called, with NaN (`none`) as the converted amount. -/
theorem createOrder_serverJs_accepts_abc :
    createOrder_serverJs (.str "abc") none 0 = .gatewayCall ⟨none, "INR", 0⟩ ∧
    createOrder_serverJs (.str "abc") none 0 ≠ .invalidAmount := by
  decide

/-- C6 (amended): for every valid (strictly positive numeric) amount the
raw-body (CommonJS) handler calls the gateway with
`Math.round(amount * 100) = ⌊amount * 100 + 1/2⌋` minor units and with
currency `"INR"` when the field is omitted; in particular amount 100 with
currency omitted produces a gateway call with amount 10000 and currency
`"INR"` in both variants.  The parsed-body variant does not round in general
(see the counterexample). -/
theorem createOrder_minor_units (v : JsVal) (c : Option String) (now : Nat)
    (q : ℚ) (hq : v.toNum = some q) (hvalid : ¬ amountInvalid v) :
    createOrder_part000 v c now =
      .gatewayCall ⟨some ((⌊q * 100 + 1 / 2⌋ : ℤ) : ℚ), c.getD "INR", now⟩ ∧
    createOrder_part000 (.num 100) none now =
      .gatewayCall ⟨some 10000, "INR", now⟩ ∧
    createOrder_serverJs (.num 100) none now =
      .gatewayCall ⟨some 10000, "INR", now⟩ := by
  refine ⟨?_, ?_, ?_⟩
  · rcases createOrder_part000_cases v c now with ⟨hi, _⟩ | ⟨_, q2, hq2, hpos, he⟩
    · exact absurd hi hvalid
    · rw [hq, Option.some.injEq] at hq2
      subst hq2
      rw [he, roundPaise_eq, jsRound_eq_floor]
  · rfl
  · have hcond : (!(JsVal.num 100).truthy || jsLeZero (JsVal.num 100)) = false := by
      norm_num [JsVal.truthy, jsLeZero, JsVal.toNum]
    unfold createOrder_serverJs
    rw [if_neg (by rw [hcond]; exact Bool.false_ne_true)]
    have hmul : (100 : ℚ) * 100 = 10000 := by norm_num
    simp only [JsVal.toNum, Option.map, hmul]
    rfl

/-- C6 witness: the conversion theorem applied at the concrete amount 100
with currency omitted. -/
theorem createOrder_minor_units_witness :
    createOrder_part000 (.num 100) none 0 =
      .gatewayCall ⟨some ((⌊(100 : ℚ) * 100 + 1 / 2⌋ : ℤ) : ℚ), "INR", 0⟩ ∧
    createOrder_serverJs (.num 100) none 0 =
      .gatewayCall ⟨some 10000, "INR", 0⟩ := by
  have h := createOrder_minor_units (.num 100) none 0 100 rfl
    (by
      rintro (h | ⟨q, hq, hle⟩)
      · exact Option.noConfusion h
      · rw [show (JsVal.num 100).toNum = some 100 from rfl,
          Option.some.injEq] at hq
        subst hq
        norm_num at hle)
  exact ⟨h.1, h.2.2⟩

/-- C6 counterexample: for the valid amount `0.005` (`1/200`), the
parsed-body variant calls the gateway with the unrounded, non-integer amount
`1/2`, while the claimed conversion (multiply by 100 and round to nearest)
yields 1. -/
theorem createOrder_serverJs_no_rounding :
    createOrder_serverJs (.num (mkRat 1 200)) none 0 =
      .gatewayCall ⟨some (mkRat 1 200 * 100), "INR", 0⟩ ∧
    mkRat 1 200 * 100 = mkRat 1 2 ∧
    (mkRat 1 2 : ℚ) ≠ ((⌊(mkRat 1 200 : ℚ) * 100 + 1 / 2⌋ : ℤ) : ℚ) := by
  have h2 : (mkRat 1 200 : ℚ) * 100 = mkRat 1 2 := by
    norm_num [Rat.mkRat_eq_divInt, Rat.divInt_eq_div]
  refine ⟨rfl, h2, ?_⟩
  rw [h2]
  have h3 : (mkRat 1 2 : ℚ) + 1 / 2 = 1 := by
    norm_num [Rat.mkRat_eq_divInt, Rat.divInt_eq_div]
  rw [h3, Int.floor_one]
  norm_num [Rat.mkRat_eq_divInt, Rat.divInt_eq_div]

/-- C7 (amended): in the raw-body (CommonJS) variant the body is parsed as
structured data only after signature verification — a failed verification
answers 400 with the store untouched regardless of the body, and a body that
fails to parse after successful verification produces HTTP 500 with no row
inserted.  In the parsed-body (`src/server.js`) variant the middleware parses
the body before the handler runs: an unparseable body is answered 400 by the
middleware even when correctly signed over the raw bytes, and verification
never takes place. -/
theorem webhook_parse_after_verify (s : String) (sig : Option String)
    (raw : String) (st : List Row) :
    (s ≠ "" → sig = some (hmacSha256Hex s raw) → parseJson raw = none →
      webhook_part000 (some s) sig raw st = (.serverError, st) ∧
      WebhookResp.serverError.httpStatus = 500) ∧
    (s ≠ "" → ∀ g, g ≠ "" → g ≠ hmacSha256Hex s raw →
      webhook_part000 (some s) (some g) raw st = (.invalidSignature, st)) ∧
    (parseJson raw = none →
      webhook_serverJs (some s) sig raw st = (.parseFailed, st) ∧
      WebhookResp.parseFailed.httpStatus = 400) := by
  refine ⟨?_, ?_, ?_⟩
  · intro hs hsig hp
    subst hsig
    have h1 : strOptTruthy (some (hmacSha256Hex s raw)) = true := by
      simp [strOptTruthy, hmacSha256Hex_ne_empty s raw]
    have h2 : strOptTruthy (some s) = true := by
      simp [strOptTruthy, hs]
    unfold webhook_part000
    rw [show (!strOptTruthy (some (hmacSha256Hex s raw)) ||
        !strOptTruthy (some s)) = false by rw [h1, h2]; rfl]
    rw [if_neg Bool.false_ne_true]
    simp only [Option.getD_some, eq_self_iff_true, if_true]
    rw [hp]
    exact ⟨rfl, rfl⟩
  · intro hs g hg hgne
    have h1 : strOptTruthy (some g) = true := by
      simp [strOptTruthy, hg]
    have h2 : strOptTruthy (some s) = true := by
      simp [strOptTruthy, hs]
    unfold webhook_part000
    rw [show (!strOptTruthy (some g) || !strOptTruthy (some s)) = false by
      rw [h1, h2]; rfl]
    rw [if_neg Bool.false_ne_true]
    simp only [Option.getD_some]
    rw [if_neg (by simp only [Option.some.injEq]; exact hgne)]
  · intro hp
    unfold webhook_serverJs
    rw [hp]
    exact ⟨rfl, rfl⟩

/-- C7 witness: a correctly signed but unparseable body gets 500 from the
raw-body handler, with the store untouched. -/
theorem webhook_parse_after_verify_witness :
    webhook_part000 (some "whsec") (some (hmacSha256Hex "whsec" "oops"))
      "oops" [] = (.serverError, []) ∧
    WebhookResp.serverError.httpStatus = 500 :=
  (webhook_parse_after_verify "whsec" (some (hmacSha256Hex "whsec" "oops"))
    "oops" []).1 (by decide) rfl rfl

/-- C7 counterexample: the claim promises HTTP 500 for a verified request
whose body fails to parse, but in `src/server.js` an unparseable body —
even one correctly signed over its raw bytes — is rejected 400 by the
`bodyParser.json()` middleware before any verification. -/
theorem webhook_serverJs_unparseable_400 :
    webhook_serverJs (some "whsec") (some (hmacSha256Hex "whsec" "oops"))
      "oops" [] = (.parseFailed, []) ∧
    WebhookResp.parseFailed.httpStatus = 400 := by
  exact ⟨rfl, rfl⟩

/-- The insert of a row with a non-NULL key, spelled as its conditional. -/
theorem insertPayment_some (st : List Row) (r : Row) (k : String)
    (hk : rowKey r = some k) :
    insertPayment st r =
      if st.any fun r0 => rowKey r0 == some k then st else st ++ [r] := by
  unfold insertPayment
  rw [hk]

/-- Inserting a keyed row yields exactly one matching row when at most one
was present before. -/
theorem keyCount_insertPayment (st : List Row) (r : Row) (k : String)
    (hk : rowKey r = some k) (hle : keyCount st k ≤ 1) :
    keyCount (insertPayment st r) k = 1 := by
  rw [insertPayment_some st r k hk]
  by_cases h : (st.any fun r0 => rowKey r0 == some k) = true
  · rw [if_pos h]
    have hpos : 0 < keyCount st k := by
      unfold keyCount
      rw [List.countP_pos_iff]
      obtain ⟨r0, hr0, hp⟩ := List.any_eq_true.1 h
      exact ⟨r0, hr0, hp⟩
    omega
  · rw [if_neg h]
    have h0 : keyCount st k = 0 := by
      unfold keyCount
      rw [List.countP_eq_zero]
      intro r0 hr0
      rw [Bool.not_eq_true] at h
      exact List.any_eq_false.1 h r0 hr0
    unfold keyCount at h0 ⊢
    rw [List.countP_append, h0]
    simp [hk]

/-- Re-inserting a row whose key is already present is a silent no-op. -/
theorem insertPayment_dup (st : List Row) (r : Row) (k : String)
    (hk : rowKey r = some k) (hpos : 0 < keyCount st k) :
    insertPayment st r = st := by
  rw [insertPayment_some st r k hk]
  have h : (st.any fun r0 => rowKey r0 == some k) = true := by
    rw [List.any_eq_true]
    unfold keyCount at hpos
    exact List.countP_pos_iff.1 hpos
  rw [if_pos h]

/-- A verified, parseable delivery to the raw-body handler responds `ok` and
performs the conditional insert of the extracted row. -/
theorem webhook_part000_verified (s raw : String) (st : List Row) (e : Json)
    (hs : s ≠ "") (hparse : parseJson raw = some e) (hnn : e ≠ .null) :
    webhook_part000 (some s) (some (hmacSha256Hex s raw)) raw st =
      (.ok, insertPayment st (mkRow_part000 e)) := by
  have h1 : strOptTruthy (some (hmacSha256Hex s raw)) = true := by
    simp [strOptTruthy, hmacSha256Hex_ne_empty s raw]
  have h2 : strOptTruthy (some s) = true := by
    simp [strOptTruthy, hs]
  unfold webhook_part000
  rw [show (!strOptTruthy (some (hmacSha256Hex s raw)) ||
      !strOptTruthy (some s)) = false by rw [h1, h2]; rfl]
  rw [if_neg Bool.false_ne_true]
  simp only [Option.getD_some, eq_self_iff_true, if_true]
  rw [hparse]
  cases e with
  | null => exact absurd rfl hnn
  | bool b => rfl
  | num q => rfl
  | str s2 => rfl
  | arr l => rfl
  | obj f => rfl

/-- C2: idempotent persistence — a successful delivery leaves exactly one row
carrying the event's key (given the unique-key invariant held before), and
re-delivering the identical request is a silent no-op on the store that still
receives the success response. -/
theorem webhook_idempotent (secret sig : Option String) (raw : String)
    (st : List Row) (e : Json) (k : String)
    (hok : (webhook_part000 secret sig raw st).1 = .ok)
    (hparse : parseJson raw = some e)
    (hkey : rowKey (mkRow_part000 e) = some k)
    (hcount : keyCount st k ≤ 1) :
    keyCount (webhook_part000 secret sig raw st).2 k = 1 ∧
    webhook_part000 secret sig raw ((webhook_part000 secret sig raw st).2) =
      (.ok, (webhook_part000 secret sig raw st).2) := by
  obtain ⟨e2, hp2, hnn2, heq, hall⟩ :
      ∃ e2, parseJson raw = some e2 ∧ e2 ≠ .null ∧
        webhook_part000 secret sig raw st =
          (.ok, insertPayment st (mkRow_part000 e2)) ∧
        ∀ st2 : List Row, webhook_part000 secret sig raw st2 =
          (.ok, insertPayment st2 (mkRow_part000 e2)) := by
    unfold webhook_part000 at hok ⊢
    by_cases h1 : (!strOptTruthy sig || !strOptTruthy secret) = true
    · rw [if_pos h1] at hok
      exact absurd hok (by simp)
    · rw [if_neg h1] at hok ⊢
      by_cases h2 : sig = some (hmacSha256Hex (secret.getD "") raw)
      · rw [if_pos h2] at hok ⊢
        cases hp : parseJson raw with
        | none => rw [hp] at hok; simp at hok
        | some ev =>
            rw [hp] at hok
            cases ev with
            | null => simp at hok
            | bool b =>
                exact ⟨_, rfl, by simp, rfl, fun st2 => by
                  rw [if_neg h1, if_pos h2]⟩
            | num q =>
                exact ⟨_, rfl, by simp, rfl, fun st2 => by
                  rw [if_neg h1, if_pos h2]⟩
            | str s2 =>
                exact ⟨_, rfl, by simp, rfl, fun st2 => by
                  rw [if_neg h1, if_pos h2]⟩
            | arr l =>
                exact ⟨_, rfl, by simp, rfl, fun st2 => by
                  rw [if_neg h1, if_pos h2]⟩
            | obj f =>
                exact ⟨_, rfl, by simp, rfl, fun st2 => by
                  rw [if_neg h1, if_pos h2]⟩
      · rw [if_neg h2] at hok
        simp at hok
  rw [hparse] at hp2
  rw [Option.some.injEq] at hp2
  subst hp2
  have hone : keyCount (insertPayment st (mkRow_part000 e)) k = 1 :=
    keyCount_insertPayment st _ k hkey hcount
  constructor
  · rw [heq]
    exact hone
  · rw [heq]
    rw [hall (insertPayment st (mkRow_part000 e))]
    rw [insertPayment_dup _ _ k hkey (by rw [hone]; exact Nat.one_pos)]

/-- The canonical test body `\x7b"id":"e1"\x7d`. -/
def canonBody : String := "\x7b\"id\":\"e1\"\x7d"

/-- C2 witness: a concrete correctly-signed delivery of event `e1` to the
empty store leaves exactly one `e1` row, and the identical re-delivery is a
no-op that still responds `ok`. -/
theorem webhook_idempotent_witness :
    keyCount (webhook_part000 (some "whsec")
      (some (hmacSha256Hex "whsec" canonBody)) canonBody []).2 "e1" = 1 ∧
    webhook_part000 (some "whsec") (some (hmacSha256Hex "whsec" canonBody))
        canonBody
        ((webhook_part000 (some "whsec")
          (some (hmacSha256Hex "whsec" canonBody)) canonBody []).2) =
      (.ok, (webhook_part000 (some "whsec")
        (some (hmacSha256Hex "whsec" canonBody)) canonBody []).2) :=
  webhook_idempotent (some "whsec") (some (hmacSha256Hex "whsec" canonBody))
    canonBody [] (jobj [("id", .str "e1")]) "e1" rfl rfl rfl (by decide)

/-- C4 (amended): field-extraction fallbacks of the raw-body (CommonJS)
handler — when the entity field is absent, status falls back to the
top-level `event` field and then to the literal `"unknown"`, amount falls
back to `0`, currency to `"INR"`, and email and contact to `null`.  The
parsed-body (`src/server.js`) variant instead falls back for status directly
to the literal `"created"`, with no `event` step and no `"unknown"` (see the
counterexample). -/
theorem webhook_fallbacks (e : Json) :
    (optChain (some (entityOf e)) "status" = none →
      (jget e "event" = none → (mkRow_part000 e).status = .str "unknown") ∧
      (∀ w, jget e "event" = some w → w.truthy = true →
        (mkRow_part000 e).status = w)) ∧
    (optChain (some (entityOf e)) "amount" = none →
      (mkRow_part000 e).amount = .num 0) ∧
    (optChain (some (entityOf e)) "currency" = none →
      (mkRow_part000 e).currency = .str "INR") ∧
    (optChain (some (entityOf e)) "email" = none →
      (mkRow_part000 e).email = .null) ∧
    (optChain (some (entityOf e)) "contact" = none →
      (mkRow_part000 e).contact = .null) := by
  refine ⟨fun h => ⟨fun h2 => ?_, fun w hw ht => ?_⟩, fun h => ?_,
    fun h => ?_, fun h => ?_, fun h => ?_⟩ <;>
    simp [mkRow_part000, jsOr, *]

/-- C4 witness: the fallback theorem applied to the concrete event
`\x7b"id":"e1","event":"payment.captured"\x7d`, whose stored status is the
event field. -/
theorem webhook_fallbacks_witness :
    (mkRow_part000 (jobj [("id", .str "e1"),
        ("event", .str "payment.captured")])).status =
      .str "payment.captured" ∧
    (mkRow_part000 (jobj [("id", .str "e1"),
        ("event", .str "payment.captured")])).amount = .num 0 :=
  ⟨((webhook_fallbacks (jobj [("id", .str "e1"),
      ("event", .str "payment.captured")])).1 rfl).2
    (.str "payment.captured") rfl (by decide),
   (webhook_fallbacks (jobj [("id", .str "e1"),
      ("event", .str "payment.captured")])).2.1 rfl⟩

/-- A canonical body with no payment entity and a top-level event field. -/
def eventOnlyBody : String :=
  "\x7b\"id\":\"e1\",\"event\":\"payment.captured\"\x7d"

/-- C4 counterexample: for a correctly signed event whose entity is absent,
the `src/server.js` handler stores status `"created"` — not the top-level
event field (`"payment.captured"`) and not `"unknown"` as the claim
requires. -/
theorem webhook_serverJs_fallback_created :
    ((webhook_serverJs (some "whsec")
        (some (hmacSha256Hex "whsec" eventOnlyBody)) eventOnlyBody []).2.map
      fun r => r.status) = [Json.str "created"] ∧
    Json.str "created" ≠ Json.str "payment.captured" ∧
    Json.str "created" ≠ Json.str "unknown" := by
  refine ⟨rfl, by simp, by simp⟩

/-- The body of a webhook event with no `payload.payment.entity` at all. -/
def noEntityBody : String :=
  "\x7b\"id\":\"e9\",\"event\":\"payment.authorized\"\x7d"

/-- The parsed form of `noEntityBody`. -/
def noEntityEvent : Json :=
  jobj [("id", .str "e9"), ("event", .str "payment.authorized")]

/-- The all-fallback row stored for an event with no payment entity. -/
def fallbackRow (e : Json) : Row :=
  { event_id := jget e "id"
    status := jsOr (jget e "event") (.str "unknown")
    amount := .num 0
    currency := .str "INR"
    email := .null
    contact := .null }

/-- C10: a correctly signed, parseable body containing no
`payload.payment.entity` sub-record still gets the success response — 200
with body `\x7b"status":"ok"\x7d` — and the conditional insert stores a row
keyed on the top-level `id` whose remaining fields are entirely fallbacks:
status from the `event` field or `"unknown"`, amount `0`, currency `"INR"`,
email and contact `null`; on a store free of that key the row is actually
appended. -/
theorem webhook_no_entity (s raw : String) (st : List Row) (e : Json)
    (hs : s ≠ "")
    (hparse : parseJson raw = some e)
    (hnn : e ≠ .null)
    (hent : optChain (optChain (jget e "payload") "payment") "entity" = none) :
    webhook_part000 (some s) (some (hmacSha256Hex s raw)) raw st =
      (.ok, insertPayment st (fallbackRow e)) ∧
    WebhookResp.ok.httpStatus = 200 ∧
    WebhookResp.ok.bodyText = "\x7b\"status\":\"ok\"\x7d" ∧
    ((∀ r0 ∈ st, rowKey r0 ≠ rowKey (mkRow_part000 e)) →
      (webhook_part000 (some s) (some (hmacSha256Hex s raw)) raw st).2 =
        st ++ [fallbackRow e]) := by
  have hrow : mkRow_part000 e = fallbackRow e := by
    unfold mkRow_part000 entityOf fallbackRow
    rw [hent]
    rfl
  have hmain := webhook_part000_verified s raw st e hs hparse hnn
  rw [hrow] at hmain
  refine ⟨hmain, rfl, rfl, fun hfresh => ?_⟩
  rw [hmain]
  show insertPayment st _ = st ++ [_]
  rw [← hrow]
  exact insertPayment_append st _ hfresh

/-- C10 witness: the no-entity theorem applied to a concrete signed delivery
of `noEntityBody` to the empty store. -/
theorem webhook_no_entity_witness :
    webhook_part000 (some "whsec")
        (some (hmacSha256Hex "whsec" noEntityBody)) noEntityBody [] =
      (.ok, insertPayment [] (fallbackRow noEntityEvent)) ∧
    WebhookResp.ok.httpStatus = 200 :=
  ⟨(webhook_no_entity "whsec" noEntityBody [] noEntityEvent (by decide) rfl
      (fun h => Json.noConfusion h) rfl).1, rfl⟩
